import Mathlib

/-!
Shallow embedding of the quai-transfer batch transaction engine
(wallet/wallet.go, dal, dal/models, types), together with theorems about
the transfer-entry lifecycle: idempotent record reuse, nonce allocation,
broadcast error classification, receipt confirmation and batch counting.

Machine integers (int32 ids, uint64 nonces and statuses) are modeled as
`Int`/`Nat`; none of the verified properties depends on wrap-around, and
the nonce counter increases by one per allocation so 64-bit overflow is
unreachable for any realistic input. `decimal.Decimal` amounts are exact
integers in the smallest unit and are modeled as `Int`. Timestamps are
abstract `Nat` instants.
-/

/-- Source constant `GasLimit` (wallet/wallet.go). -/
def GasLimit : Nat := 420000

/-- Source constant `MinerTip` (wallet/wallet.go). -/
def MinerTip : Nat := 1000

/-- `models.Generated` (dal/models/transaction.go): `TxStatus` is a uint64
enum with `Generated = iota = 0`. It is modeled as the raw number because
`TransactionDAL.UpdateTransactionStatus` stores an unconverted receipt
status into the same column. -/
def Generated : Nat := 0

/-- `models.Confirmed = 1` (dal/models/transaction.go). -/
def Confirmed : Nat := 1

/-- `wtypes.TransferEntry`: one requested payment. `pq.Int64Array` is
modeled as `List Int`. -/
structure TransferEntry where
  id : Int
  minerAccount : String
  value : Int
  toAddress : String
  aggregateIds : List Int
  minerAccountID : Nat
deriving DecidableEq

/-- A signed `types.Transaction` as the engine consumes it: exactly the
fields the wallet reads back from the external assembler/signer
(`Hash`, `Nonce`, `GasPrice`, `Gas`, `To`, `Value`). The hash is an
opaque string. -/
structure SignedTx where
  hash : String
  nonce : Nat
  gasPrice : Int
  gas : Nat
  toAddr : String
  value : Int
deriving DecidableEq

/-- `models.Transaction` (dal/models/transaction.go). The `tx`/`entry`
jsonb columns hold serialized blobs: a valid serialization of `v` is
modeled as `some v`, and the column's zero value `""` (which fails to
deserialize with `json.Unmarshal`) as `none`. -/
structure TransactionRecord where
  id : Int
  minerAccount : String
  payer : String
  nonce : Nat
  toAddress : String
  txHash : String
  value : Int
  gas : Int
  gasLimit : Int
  gasUsed : Int
  cumulativeGasUsed : Int
  gasPrice : Int
  status : Nat
  createdAt : Nat
  confirmedAt : Option Nat
  aggregateIds : List Int
  txBlob : Option SignedTx
  entryBlob : Option TransferEntry
deriving DecidableEq

/-- The Go zero value of `models.Transaction`, which is what a gorm `Scan`
into a fresh struct leaves behind when the query matches no row. -/
def zeroRecord : TransactionRecord :=
  { id := 0, minerAccount := "", payer := "", nonce := 0, toAddress := ""
  , txHash := "", value := 0, gas := 0, gasLimit := 0, gasUsed := 0
  , cumulativeGasUsed := 0, gasPrice := 0, status := 0, createdAt := 0
  , confirmedAt := none, aggregateIds := [], txBlob := none, entryBlob := none }

/-- The `transactions` table (`id` is the primary key, `tx_hash` has a
unique index). -/
structure Store where
  records : List TransactionRecord
deriving DecidableEq

/-- `types.Receipt` as consumed by the engine: execution status
(`1` success, `0` failed) and gas accounting. -/
structure Receipt where
  status : Nat
  gasUsed : Nat
  cumulativeGasUsed : Nat
deriving DecidableEq

/-- `TransactionDAL.CreateTransaction` (dal): `db.Create` fails on a
duplicate primary key `id`; otherwise the row is inserted. Storage I/O
failures are outside the pure model. -/
def TransactionDAL.CreateTransaction (s : Store) (tx : TransactionRecord) :
    Except String Store :=
  if s.records.any (fun r => r.id = tx.id) then
    .error "duplicated key not allowed"
  else
    .ok ⟨s.records ++ [tx]⟩

/-- `TransactionDAL.UpdateTransactionStatus` (dal): a gorm `Updates` with
`Where("tx_hash = ?")`. It writes the raw `receipt.Status`, the supplied
gas-cost amount, `receipt.GasUsed`, `receipt.CumulativeGasUsed` and
`time.Now()` into every matching row. gorm's `Updates` reports a nil
error when zero rows match (the code never inspects `RowsAffected`), so
in the pure model the operation always succeeds. -/
def TransactionDAL.UpdateTransactionStatus (s : Store) (txHash : String)
    (gasUsedAmount : Int) (receipt : Receipt) (now : Nat) :
    Except String Store :=
  .ok ⟨s.records.map (fun r =>
    if r.txHash = txHash then
      { r with status := receipt.status
             , gas := gasUsedAmount
             , gasUsed := (receipt.gasUsed : Int)
             , cumulativeGasUsed := (receipt.cumulativeGasUsed : Int)
             , confirmedAt := some now }
    else r)⟩

/-- `TransactionDAL.GetTransactionByID` (dal): a gorm
`Select("tx::text", "entry::text", "status") ... Scan(&tx)`. gorm's `Scan`
leaves the destination at its zero value and returns a nil error when the
query matches no row; `ErrRecordNotFound` is raised only by `First`/`Take`,
so the not-found branch of the Go source is unreachable and the scanned
struct is returned unconditionally. Only the three selected columns are
populated. -/
def TransactionDAL.GetTransactionByID (s : Store) (id : Int) :
    Except String (Option TransactionRecord) :=
  let scanned :=
    match s.records.find? (fun r => r.id = id) with
    | some r => { zeroRecord with txBlob := r.txBlob, entryBlob := r.entryBlob
                                , status := r.status }
    | none => zeroRecord
  .ok (some scanned)

/-- Whether `pat` occurs at the head of `s` (character-wise). -/
def matchHead : List Char → List Char → Bool
  | [], _ => true
  | _ :: _, [] => false
  | a :: as, b :: bs => a == b && matchHead as bs

/-- Whether `pat` occurs anywhere inside `s` (character-wise). -/
def containsSub (pat : List Char) : List Char → Bool
  | [] => matchHead pat []
  | c :: rest => matchHead pat (c :: rest) || containsSub pat rest

/-- `strings.Contains s pat`. -/
def strContains (s pat : String) : Bool :=
  containsSub pat.toList s.toList

/-- Map-style insertion into the `pendingNonces` set
(`w.pendingNonces[nonce] = true`). -/
def insertNonce (n : Nat) (l : List Nat) : List Nat :=
  if n ∈ l then l else n :: l

/-- Map-style insertion into the `pendingTxs` map keyed by transaction
hash (`w.pendingTxs[signedTx.Hash()] = ...`). -/
def putPendingTx (tx : SignedTx) (e : TransferEntry)
    (l : List (SignedTx × TransferEntry)) : List (SignedTx × TransferEntry) :=
  l.filter (fun q => q.1.hash ≠ tx.hash) ++ [(tx, e)]

/-- `delete(w.pendingTxs, hash)`. -/
def delPendingTx (h : String) (l : List (SignedTx × TransferEntry)) :
    List (SignedTx × TransferEntry) :=
  l.filter (fun q => q.1.hash ≠ h)

/-- The mutable wallet state (`wallet.Wallet`): the nonce ledger
(`maxLocalNonce`, `pendingNonces`), the in-memory pending-transaction map
and the persistent store handle. -/
structure Wallet where
  maxLocalNonce : Nat
  pendingNonces : List Nat
  pendingTxs : List (SignedTx × TransferEntry)
  store : Store
deriving DecidableEq

/-- The external collaborators of one run, as one environment snapshot:
the chain client (`PendingNonceAt`, `SuggestGasPrice`, `SendTransaction`,
`TransactionReceipt`), the assembler/signer (`types.NewTx` + `SignTx`),
the address validator, the wallet address and the clock. `broadcastResult`
is `none` on acceptance and `some msg` on a failure with message `msg`;
`cancelled` tells whether the deadline context fires during the
`NonceWaitTime` wait inside `GetNonce`. -/
structure Env where
  pendingNonce : Nat
  cancelled : Bool
  gasPrice : Int
  signFor : TransferEntry → Nat → Int → SignedTx
  broadcastResult : SignedTx → Option String
  receiptFor : String → Option Receipt
  isValidQuaiAddress : String → Bool
  payer : String
  now : Nat

/-- The part of `Wallet.GetNonce` (wallet/wallet.go:105) that runs under
the nonce mutex before the `NonceWaitTime` wait: pick
`maxLocalNonce + 1` when `maxLocalNonce >= pendingNonce`, otherwise the
network pending nonce; record the result as the new `maxLocalNonce` and
insert it into `pendingNonces`. -/
def Wallet.allocateNonce (w : Wallet) (pendingNonce : Nat) : Nat × Wallet :=
  let nonce := if pendingNonce ≤ w.maxLocalNonce then w.maxLocalNonce + 1 else pendingNonce
  (nonce, { w with maxLocalNonce := nonce
                 , pendingNonces := insertNonce nonce w.pendingNonces })

/-- `Wallet.GetNonce` (wallet/wallet.go:105): allocate, then wait for
`NonceWaitTime`; if the context is cancelled during the wait the call
returns an error — after the state was already updated. -/
def Wallet.GetNonce (w : Wallet) (pendingNonce : Nat) (cancelled : Bool) :
    Wallet × Option Nat :=
  let a := w.allocateNonce pendingNonce
  (a.2, if cancelled then none else some a.1)

/-- Consecutive nonce allocations on one wallet instance (each call to
`GetNonce` serialized by `nonceMutex`), fed by the per-call network
pending-nonce observations `ps`. -/
def Wallet.allocateMany : Wallet → List Nat → List Nat × Wallet
  | w, [] => ([], w)
  | w, p :: ps =>
    let a := w.allocateNonce p
    let rest := Wallet.allocateMany a.2 ps
    (a.1 :: rest.1, rest.2)

/-- `Wallet.cleanupConfirmedNonces` (wallet/wallet.go:864): remove a
confirmed nonce from `pendingNonces` under the nonce mutex. -/
def Wallet.cleanupConfirmedNonces (w : Wallet) (nonce : Nat) : Wallet :=
  { w with pendingNonces := w.pendingNonces.filter (fun x => x ≠ nonce) }

/-- `Wallet.CheckTransactionAndConfirm` (wallet/wallet.go:358): one direct
receipt lookup by hash; if a receipt exists, write
`gasUsed * tx.GasPrice()` and the receipt into the record with that hash
and release the transaction's nonce. Returns the updated wallet and
`some errorMessage` on failure. -/
def Wallet.CheckTransactionAndConfirm (w : Wallet) (env : Env) (tx : SignedTx) :
    Wallet × Option String :=
  match env.receiptFor tx.hash with
  | none => (w, some "transaction receipt not found")
  | some receipt =>
    let gasUsedAmount : Int := (receipt.gasUsed : Int) * tx.gasPrice
    match TransactionDAL.UpdateTransactionStatus w.store tx.hash gasUsedAmount receipt env.now with
    | .error e => (w, some e)
    | .ok s' => (({ w with store := s' }).cleanupConfirmedNonces tx.nonce, none)

/-- `Wallet.MonitorAndConfirmTransaction` (wallet/wallet.go:329):
`WaitForReceipt` polls the same `TransactionReceipt` call up to
`ReceiptMaxRetries` times; in the timeless model its outcome collapses to
the single oracle query, after which the confirmation bookkeeping is the
same as in `CheckTransactionAndConfirm`. -/
def Wallet.MonitorAndConfirmTransaction (w : Wallet) (env : Env) (tx : SignedTx) :
    Wallet × Option String :=
  match env.receiptFor tx.hash with
  | none => (w, some "timeout waiting for transaction receipt")
  | some receipt =>
    let gasUsedAmount : Int := (receipt.gasUsed : Int) * tx.gasPrice
    match TransactionDAL.UpdateTransactionStatus w.store tx.hash gasUsedAmount receipt env.now with
    | .error e => (w, some e)
    | .ok s' => (({ w with store := s' }).cleanupConfirmedNonces tx.nonce, none)

/-- `Wallet.GetTransactionByID` (wallet/wallet.go:786): read the record
through the DAL and deserialize the stored transaction and entry blobs. -/
def Wallet.GetTransactionByID (w : Wallet) (id : Int) :
    Except String (Option SignedTx × Option TransferEntry × Nat) :=
  match TransactionDAL.GetTransactionByID w.store id with
  | .error e => .error ("failed to get transaction: " ++ e)
  | .ok none => .ok (none, none, 0)
  | .ok (some txRecord) =>
    match txRecord.txBlob with
    | none => .error "failed to deserialize transaction"
    | some tx =>
      match txRecord.entryBlob with
      | none => .error "failed to deserialize entry"
      | some entry => .ok (some tx, some entry, txRecord.status)

/-- `CompareEntries` (wallet/wallet.go:809): nil arguments are equal only
when both are nil; otherwise compare exactly `ID`, `MinerAccountID`,
`ToAddress` and `Value`. -/
def CompareEntries : Option TransferEntry → Option TransferEntry → Bool
  | some a, some b =>
    a.id == b.id && a.minerAccountID == b.minerAccountID &&
      a.toAddress == b.toAddress && a.value == b.value
  | a, b => a.isNone && b.isNone

/-- `Wallet.CreateTransaction` (wallet/wallet.go:689): allocate a nonce,
assemble and sign the transaction through the external signer, and
persist the full record (including the serialized transaction and entry)
through `TransactionDAL.CreateTransaction`. -/
def Wallet.CreateTransaction (w : Wallet) (env : Env) (entry : TransferEntry) :
    Wallet × Except String SignedTx :=
  match w.GetNonce env.pendingNonce env.cancelled with
  | (w₁, none) => (w₁, .error "failed to get nonce: context cancelled")
  | (w₁, some nonce) =>
    let signedTx := env.signFor entry nonce env.gasPrice
    let txRecord : TransactionRecord :=
      { id := entry.id, minerAccount := entry.minerAccount, payer := env.payer
      , nonce := nonce, toAddress := entry.toAddress, txHash := signedTx.hash
      , value := entry.value, gas := 0, gasLimit := (signedTx.gas : Int)
      , gasUsed := 0, cumulativeGasUsed := 0, gasPrice := signedTx.gasPrice
      , status := Generated, createdAt := env.now, confirmedAt := none
      , aggregateIds := entry.aggregateIds
      , txBlob := some signedTx, entryBlob := some entry }
    match TransactionDAL.CreateTransaction w₁.store txRecord with
    | .error e => (w₁, .error ("failed to create transaction record: " ++ e))
    | .ok s' => ({ w₁ with store := s' }, .ok signedTx)

/-- Outcome of processing one entry. -/
inductive EntryOutcome where
  | ok
  | alreadyProcessed
  | err (msg : String)
deriving DecidableEq

/-- Result of `ProcessEntry`/`ProcessEntryAsync`, instrumented with the
observable events of the run: whether `CreateTransaction` was invoked,
the hashes handed to `BroadcastTransaction`, and which confirmation path
ran (`checkedDirectly` = `CheckTransactionAndConfirm`,
`monitored` = `MonitorAndConfirmTransaction`). -/
structure ProcessResult where
  wallet : Wallet
  outcome : EntryOutcome
  createdTx : Bool
  broadcasts : List String
  checkedDirectly : Bool
  monitored : Bool

/-- The error message of the entry-mismatch hard error in
`ProcessEntry`/`ProcessEntryAsync`. -/
def entryMismatchMsg (id : Int) : String :=
  "entry mismatch for ID " ++ toString id ++ ": stored entry differs from provided entry"

/-- The broadcast/classification tail of `Wallet.ProcessEntry`
(wallet/wallet.go:666-686), factored out of the inline Go code:
on success or on an error containing "already known", run the blocking
receipt monitor; on "nonce too low", resolve by one direct receipt lookup
(`CheckTransactionAndConfirm`) and succeed if it does; any other error is
propagated. -/
def Wallet.processEntryBroadcast (w : Wallet) (env : Env) (signedTx : SignedTx)
    (created : Bool) : ProcessResult :=
  match env.broadcastResult signedTx with
  | none =>
    let m := w.MonitorAndConfirmTransaction env signedTx
    ⟨m.1, match m.2 with | none => .ok | some e => .err e, created,
      [signedTx.hash], false, true⟩
  | some msg =>
    if strContains msg "nonce too low" then
      let c := w.CheckTransactionAndConfirm env signedTx
      match c.2 with
      | some e =>
        ⟨c.1, .err ("failed to check and confirm transaction: receipt " ++ e ++ " and nonce too low"),
          created, [signedTx.hash], true, false⟩
      | none => ⟨c.1, .ok, created, [signedTx.hash], true, false⟩
    else if strContains msg "already known" then
      let m := w.MonitorAndConfirmTransaction env signedTx
      ⟨m.1, match m.2 with | none => .ok | some e => .err e, created,
        [signedTx.hash], false, true⟩
    else
      ⟨w, .err ("failed to send transaction: " ++ msg), created,
        [signedTx.hash], false, false⟩

/-- `Wallet.ProcessEntry` (wallet/wallet.go:639): look the entry id up,
skip confirmed entries, reject mismatching stored entries, reuse the
stored signed transaction (or create one when absent), then broadcast and
classify. -/
def Wallet.ProcessEntry (w : Wallet) (env : Env) (entry : TransferEntry) :
    ProcessResult :=
  match w.GetTransactionByID entry.id with
  | .error e => ⟨w, .err ("failed to get transaction: " ++ e), false, [], false, false⟩
  | .ok (signedTx?, storedEntry?, status) =>
    if status = Confirmed then ⟨w, .alreadyProcessed, false, [], false, false⟩
    else if storedEntry?.isSome && !CompareEntries (some entry) storedEntry? then
      ⟨w, .err (entryMismatchMsg entry.id), false, [], false, false⟩
    else
      match signedTx? with
      | some signedTx => w.processEntryBroadcast env signedTx false
      | none =>
        match w.CreateTransaction env entry with
        | (w₁, .error e) =>
          ⟨w₁, .err ("failed to create transaction: " ++ e), true, [], false, false⟩
        | (w₁, .ok signedTx) => w₁.processEntryBroadcast env signedTx true

/-- The registration/broadcast tail of `Wallet.ProcessEntryAsync`
(wallet/wallet.go:614-635), factored out of the inline Go code. -/
def Wallet.processEntryAsyncBroadcast (w : Wallet) (env : Env)
    (entry : TransferEntry) (signedTx : SignedTx) (created : Bool) : ProcessResult :=
  let w₂ := { w with pendingTxs := putPendingTx signedTx entry w.pendingTxs }
  match env.broadcastResult signedTx with
  | none => ⟨w₂, .ok, created, [signedTx.hash], false, false⟩
  | some msg =>
    if !strContains msg "nonce too low" && !strContains msg "already known" then
      ⟨{ w₂ with pendingTxs := delPendingTx signedTx.hash w₂.pendingTxs },
        .err ("failed to broadcast transaction: " ++ msg), created,
        [signedTx.hash], false, false⟩
    else ⟨w₂, .ok, created, [signedTx.hash], false, false⟩

/-- `Wallet.ProcessEntryAsync` (wallet/wallet.go:590): same lookup, skip
and mismatch logic as `ProcessEntry`, but register the transaction in the
in-memory `pendingTxs` map before broadcasting and leave confirmation to
the shared monitor loop; a broadcast error containing neither
"nonce too low" nor "already known" removes the registration and fails
the entry. -/
def Wallet.ProcessEntryAsync (w : Wallet) (env : Env) (entry : TransferEntry) :
    ProcessResult :=
  match w.GetTransactionByID entry.id with
  | .error e => ⟨w, .err ("failed to get transaction: " ++ e), false, [], false, false⟩
  | .ok (signedTx?, storedEntry?, status) =>
    if status = Confirmed then ⟨w, .alreadyProcessed, false, [], false, false⟩
    else if storedEntry?.isSome && !CompareEntries (some entry) storedEntry? then
      ⟨w, .err (entryMismatchMsg entry.id), false, [], false, false⟩
    else
      match signedTx? with
      | some signedTx => w.processEntryAsyncBroadcast env entry signedTx false
      | none =>
        match w.CreateTransaction env entry with
        | (w₁, .error e) =>
          ⟨w₁, .err ("failed to create transaction: " ++ e), true, [], false, false⟩
        | (w₁, .ok signedTx) => w₁.processEntryAsyncBroadcast env entry signedTx true

/-- The body of the per-submission loop of `Wallet.checkPendingTransactions`
(wallet/wallet.go:922-931): run `CheckTransactionAndConfirm` for one
pending submission and, when it succeeds, remove the submission from the
`pendingTxs` map. -/
def Wallet.processPendingTx (w : Wallet) (env : Env) (p : SignedTx × TransferEntry) :
    Wallet :=
  let c := w.CheckTransactionAndConfirm env p.1
  match c.2 with
  | none => { c.1 with pendingTxs := delPendingTx p.1.hash c.1.pendingTxs }
  | some _ => c.1

/-- `Wallet.checkPendingTransactions` (wallet/wallet.go:914): snapshot the
pending map under the read lock, then process every snapshotted
submission in turn. -/
def Wallet.checkPendingTransactions (w : Wallet) (env : Env) : Wallet :=
  w.pendingTxs.foldl (fun w' p => w'.processPendingTx env p) w

/-- The `for`/`select` loop of `Wallet.MonitorAllTransactions`
(wallet/wallet.go:880-911). `fuel` is the number of ticker fires that
happen before the deadline context expires; `t` indexes ticks into the
time-dependent receipt oracle. When the pending set empties the loop
returns `0`; when the deadline fires first it returns the size of the
remaining pending set. -/
def Wallet.monitorLoop (env : Env) (oracle : Nat → String → Option Receipt) :
    Nat → Nat → Wallet → Nat × Wallet
  | 0, _, w =>
    if w.pendingTxs.isEmpty then (0, w) else (w.pendingTxs.length, w)
  | fuel + 1, t, w =>
    if w.pendingTxs.isEmpty then (0, w)
    else
      Wallet.monitorLoop env oracle fuel (t + 1)
        (w.checkPendingTransactions { env with receiptFor := oracle t })

/-- `Wallet.MonitorAllTransactions` (wallet/wallet.go:874): one initial
`checkPendingTransactions` pass, then the ticker loop. Returns the number
of unprocessed transactions. -/
def Wallet.MonitorAllTransactions (w : Wallet) (env : Env)
    (oracle : Nat → String → Option Receipt) (fuel : Nat) : Nat × Wallet :=
  Wallet.monitorLoop env oracle fuel 1
    (w.checkPendingTransactions { env with receiptFor := oracle 0 })

/-- The per-entry counters of `Wallet.ProcessBatchEntry`
(`invalidCnt`, `failedCnt`, `processedCnt`). -/
structure BatchCounts where
  invalidCnt : Nat
  failedCnt : Nat
  processedCnt : Nat
deriving DecidableEq

/-- The submission phase of `Wallet.ProcessBatchEntry`
(wallet/wallet.go:829-849): validate each entry's recipient address,
dispatch it through `ProcessEntryAsync`, and classify the outcome into
invalid / skipped (already processed) / failed / queued. -/
def Wallet.processEntries (w : Wallet) (env : Env)
    (entries : List TransferEntry) : BatchCounts × Wallet :=
  entries.foldl
    (fun acc entry =>
      if !env.isValidQuaiAddress entry.toAddress then
        ({ acc.1 with invalidCnt := acc.1.invalidCnt + 1 }, acc.2)
      else
        let r := acc.2.ProcessEntryAsync env entry
        match r.outcome with
        | .alreadyProcessed =>
          ({ acc.1 with processedCnt := acc.1.processedCnt + 1 }, r.wallet)
        | .err _ => ({ acc.1 with failedCnt := acc.1.failedCnt + 1 }, r.wallet)
        | .ok => (acc.1, r.wallet))
    (⟨0, 0, 0⟩, w)

/-- The end-of-run summary of `Wallet.ProcessBatchEntry`
(wallet/wallet.go:859-861). `success` is a Go `int` and is therefore
modeled as `Int`. -/
structure BatchResult where
  total : Nat
  success : Int
  failed : Nat
  processed : Nat
  unprocessed : Nat
  invalid : Nat
deriving DecidableEq

/-- `Wallet.ProcessBatchEntry` (wallet/wallet.go:822): run the submission
phase over the entry list in input order, then the shared monitor loop
under the batch deadline, and aggregate
`successCnt = len(entries) - invalidCnt - failedCnt - processedCnt - unprocessedCount`. -/
def Wallet.ProcessBatchEntry (w : Wallet) (env : Env)
    (oracle : Nat → String → Option Receipt) (fuel : Nat)
    (entries : List TransferEntry) : BatchResult × Wallet :=
  let c := w.processEntries env entries
  let m := c.2.MonitorAllTransactions env oracle fuel
  ({ total := entries.length
   , success := (entries.length : Int) - (c.1.invalidCnt : Int) -
       (c.1.failedCnt : Int) - (c.1.processedCnt : Int) - (m.1 : Int)
   , failed := c.1.failedCnt
   , processed := c.1.processedCnt
   , unprocessed := m.1
   , invalid := c.1.invalidCnt }, m.2)

/-! ## Nonce allocation -/

theorem allocateNonce_fst_max (w : Wallet) (p : Nat) :
    (w.allocateNonce p).1 = max p (w.maxLocalNonce + 1) := by
  simp only [Wallet.allocateNonce]
  split <;> omega

theorem allocateNonce_fst_lt (w : Wallet) (p : Nat) :
    w.maxLocalNonce < (w.allocateNonce p).1 := by
  simp only [Wallet.allocateNonce]
  split <;> omega

theorem allocateNonce_fst_ge (w : Wallet) (p : Nat) :
    p ≤ (w.allocateNonce p).1 := by
  simp only [Wallet.allocateNonce]
  split <;> omega

theorem allocateNonce_snd_max (w : Wallet) (p : Nat) :
    (w.allocateNonce p).2.maxLocalNonce = (w.allocateNonce p).1 := rfl

theorem allocateNonce_snd_pending (w : Wallet) (p : Nat) :
    (w.allocateNonce p).2.pendingNonces =
      insertNonce (w.allocateNonce p).1 w.pendingNonces := rfl

theorem mem_insertNonce_iff (n m : Nat) (l : List Nat) :
    m ∈ insertNonce n l ↔ m = n ∨ m ∈ l := by
  unfold insertNonce
  split
  · next h => constructor
              · exact fun hm => Or.inr hm
              · rintro (rfl | hm)
                · exact h
                · exact hm
  · exact List.mem_cons

theorem mem_insertNonce_self (n : Nat) (l : List Nat) : n ∈ insertNonce n l :=
  (mem_insertNonce_iff n n l).mpr (Or.inl rfl)

/-- The nonce-ledger invariant: every nonce in the pending set has already
been counted by `maxLocalNonce`. It holds for a fresh wallet
(`maxLocalNonce = 0`, empty set) and is preserved by every allocation and
by `cleanupConfirmedNonces`. -/
def NonceInv (w : Wallet) : Prop :=
  ∀ x ∈ w.pendingNonces, x ≤ w.maxLocalNonce

theorem nonceInv_allocate (w : Wallet) (p : Nat) (h : NonceInv w) :
    NonceInv (w.allocateNonce p).2 := by
  intro x hx
  rw [allocateNonce_snd_pending] at hx
  rw [allocateNonce_snd_max]
  rcases (mem_insertNonce_iff _ _ _).mp hx with rfl | hx
  · exact Nat.le_refl _
  · exact Nat.le_of_lt (Nat.lt_of_le_of_lt (h x hx) (allocateNonce_fst_lt w p))

theorem allocateMany_gt (ps : List Nat) (w : Wallet) :
    ∀ m ∈ (Wallet.allocateMany w ps).1, w.maxLocalNonce < m := by
  induction ps generalizing w with
  | nil => intro m hm; simp [Wallet.allocateMany] at hm
  | cons p ps ih =>
    intro m hm
    simp only [Wallet.allocateMany, List.mem_cons] at hm
    rcases hm with rfl | hm
    · exact allocateNonce_fst_lt w p
    · have := ih (w.allocateNonce p).2 m hm
      rw [allocateNonce_snd_max] at this
      exact Nat.lt_trans (allocateNonce_fst_lt w p) this

theorem allocateMany_pairwise_lt (ps : List Nat) (w : Wallet) :
    List.Pairwise (· < ·) (Wallet.allocateMany w ps).1 := by
  induction ps generalizing w with
  | nil => simp [Wallet.allocateMany]
  | cons p ps ih =>
    simp only [Wallet.allocateMany, List.pairwise_cons]
    refine ⟨fun m hm => ?_, ih (w.allocateNonce p).2⟩
    have := allocateMany_gt ps (w.allocateNonce p).2 m hm
    rwa [allocateNonce_snd_max] at this

theorem allocateMany_ge (ps : List Nat) (w : Wallet) :
    List.Forall₂ (fun p n => p ≤ n) ps (Wallet.allocateMany w ps).1 := by
  induction ps generalizing w with
  | nil => simp [Wallet.allocateMany]
  | cons p ps ih =>
    simp only [Wallet.allocateMany]
    exact List.Forall₂.cons (allocateNonce_fst_ge w p) (ih (w.allocateNonce p).2)

theorem allocateMany_inv (ps : List Nat) (w : Wallet) (h : NonceInv w) :
    NonceInv (Wallet.allocateMany w ps).2 := by
  induction ps generalizing w with
  | nil => exact h
  | cons p ps ih => exact ih (w.allocateNonce p).2 (nonceInv_allocate w p h)

theorem nonceInv_cleanup (w : Wallet) (n : Nat) (h : NonceInv w) :
    NonceInv (w.cleanupConfirmedNonces n) := by
  intro x hx
  exact h x (List.mem_of_mem_filter hx)

/-- C3: a call to `GetNonce` that succeeds returns exactly
`max(networkPendingNonce, maxLocalNonce + 1)` computed from the state at
the time of the call; moreover the `allocateNonce` part that runs before
the `NonceWaitTime` wait already records the result as the new
`maxLocalNonce` and inserts it into `pendingNonces`, and the wait changes
nothing afterwards (the returned state is exactly the pre-wait state). -/
theorem C3_getNonce_allocates_max (w : Wallet) (p : Nat) (c : Bool) (n : Nat)
    (h : (w.GetNonce p c).2 = some n) :
    n = max p (w.maxLocalNonce + 1) ∧
    (w.allocateNonce p).2.maxLocalNonce = n ∧
    n ∈ (w.allocateNonce p).2.pendingNonces ∧
    (w.GetNonce p c).1 = (w.allocateNonce p).2 := by
  cases c with
  | true => simp [Wallet.GetNonce] at h
  | false =>
    simp only [Wallet.GetNonce, Bool.false_eq_true, if_false, Option.some.injEq] at h
    subst h
    refine ⟨(allocateNonce_fst_max w p).symm ▸ rfl, allocateNonce_snd_max w p, ?_, rfl⟩
    rw [allocateNonce_snd_pending]
    exact mem_insertNonce_self _ _

/-- C3 witness: a concrete successful allocation (network pending nonce 4,
local counter 9) returns `max 4 10 = 10` and records it before the wait. -/
theorem C3_getNonce_allocates_max_witness :
    ((⟨9, [7], [], ⟨[]⟩⟩ : Wallet).GetNonce 4 false).2 = some 10 ∧
    (10 = max 4 (9 + 1) ∧
      ((⟨9, [7], [], ⟨[]⟩⟩ : Wallet).allocateNonce 4).2.maxLocalNonce = 10 ∧
      10 ∈ ((⟨9, [7], [], ⟨[]⟩⟩ : Wallet).allocateNonce 4).2.pendingNonces ∧
      ((⟨9, [7], [], ⟨[]⟩⟩ : Wallet).GetNonce 4 false).1 =
        ((⟨9, [7], [], ⟨[]⟩⟩ : Wallet).allocateNonce 4).2) :=
  ⟨by decide, C3_getNonce_allocates_max ⟨9, [7], [], ⟨[]⟩⟩ 4 false 10 (by decide)⟩

/-- C4: over any sequence of serialized allocations on one wallet, the
returned nonces are strictly increasing (hence pairwise distinct) and
each is at least the network pending nonce observed at its own
allocation; under the nonce-ledger invariant no returned nonce is in the
pending set, the invariant is preserved by the whole run, and
`cleanupConfirmedNonces` preserves it too, so a nonce sitting in
`pendingNonces` is never handed out again. -/
theorem C4_nonce_allocation_monotone (w : Wallet) (ps : List Nat)
    (hinv : NonceInv w) :
    List.Pairwise (· < ·) (Wallet.allocateMany w ps).1 ∧
    List.Pairwise (· ≠ ·) (Wallet.allocateMany w ps).1 ∧
    List.Forall₂ (fun p n => p ≤ n) ps (Wallet.allocateMany w ps).1 ∧
    (∀ m ∈ (Wallet.allocateMany w ps).1, m ∉ w.pendingNonces) ∧
    NonceInv (Wallet.allocateMany w ps).2 ∧
    (∀ n, NonceInv ((Wallet.allocateMany w ps).2.cleanupConfirmedNonces n)) := by
  refine ⟨allocateMany_pairwise_lt ps w,
    (allocateMany_pairwise_lt ps w).imp Nat.ne_of_lt,
    allocateMany_ge ps w, fun m hm hmem => ?_,
    allocateMany_inv ps w hinv,
    fun n => nonceInv_cleanup _ n (allocateMany_inv ps w hinv)⟩
  exact Nat.lt_irrefl m (Nat.lt_of_le_of_lt (hinv m hmem) (allocateMany_gt ps w m hm))

/-- C4 witness: three allocations on a fresh wallet with network
observations `[5, 3, 10]` return `[5, 6, 10]`. -/
theorem C4_nonce_allocation_monotone_witness :
    NonceInv ⟨0, [], [], ⟨[]⟩⟩ ∧
    (List.Pairwise (· < ·) (Wallet.allocateMany ⟨0, [], [], ⟨[]⟩⟩ [5, 3, 10]).1 ∧
     List.Pairwise (· ≠ ·) (Wallet.allocateMany ⟨0, [], [], ⟨[]⟩⟩ [5, 3, 10]).1 ∧
     List.Forall₂ (fun p n => p ≤ n) [5, 3, 10]
       (Wallet.allocateMany ⟨0, [], [], ⟨[]⟩⟩ [5, 3, 10]).1 ∧
     (∀ m ∈ (Wallet.allocateMany ⟨0, [], [], ⟨[]⟩⟩ [5, 3, 10]).1,
        m ∉ (⟨0, [], [], ⟨[]⟩⟩ : Wallet).pendingNonces) ∧
     NonceInv (Wallet.allocateMany ⟨0, [], [], ⟨[]⟩⟩ [5, 3, 10]).2 ∧
     (∀ n, NonceInv ((Wallet.allocateMany ⟨0, [], [], ⟨[]⟩⟩ [5, 3, 10]).2.cleanupConfirmedNonces n))) :=
  have h : NonceInv ⟨0, [], [], ⟨[]⟩⟩ := by intro x hx; simp at hx
  ⟨h, C4_nonce_allocation_monotone ⟨0, [], [], ⟨[]⟩⟩ [5, 3, 10] h⟩

/-! ## Store lookup and update -/

/-- C2: for an id with no stored record the lookup does NOT return
absent. gorm's `Scan` never raises `ErrRecordNotFound`, so
`TransactionDAL.GetTransactionByID` returns a zero-valued record together
with a nil error (its own `// Return nil if no record found` branch is
dead), and `Wallet.GetTransactionByID` then fails deserializing the empty
`tx` blob instead of reporting the record as absent. -/
theorem C2_missing_id_lookup_bug :
    TransactionDAL.GetTransactionByID ⟨[]⟩ 7 = .ok (some zeroRecord) ∧
    Wallet.GetTransactionByID ⟨0, [], [], ⟨[]⟩⟩ 7 =
      .error "failed to deserialize transaction" :=
  ⟨rfl, rfl⟩

/-- C9 (amended): `TransactionDAL.UpdateTransactionStatus` with a
transaction hash matching no stored record does not fail with a
not-found error: it returns success and leaves the store unchanged (gorm
`Updates` reports a nil error on zero matched rows and `RowsAffected` is
never inspected). When the hash is known, the matching record's status,
gas usage fields and confirmation timestamp are updated. -/
theorem C9_update_status_unknown_hash (s : Store) (h : String) (g : Int)
    (rcpt : Receipt) (t : Nat) :
    ((∀ r ∈ s.records, r.txHash ≠ h) →
      TransactionDAL.UpdateTransactionStatus s h g rcpt t = .ok s) ∧
    (∀ s', TransactionDAL.UpdateTransactionStatus s h g rcpt t = .ok s' →
      ∀ r' ∈ s'.records, r'.txHash = h →
        r'.status = rcpt.status ∧ r'.gas = g ∧
        r'.gasUsed = (rcpt.gasUsed : Int) ∧
        r'.cumulativeGasUsed = (rcpt.cumulativeGasUsed : Int) ∧
        r'.confirmedAt = some t) := by
  obtain ⟨l⟩ := s
  constructor
  · intro hmiss
    unfold TransactionDAL.UpdateTransactionStatus
    have : l.map (fun r =>
        if r.txHash = h then
          { r with status := rcpt.status, gas := g
                 , gasUsed := (rcpt.gasUsed : Int)
                 , cumulativeGasUsed := (rcpt.cumulativeGasUsed : Int)
                 , confirmedAt := some t }
        else r) = l.map id := by
      refine List.map_congr_left (fun r hr => ?_)
      rw [if_neg (hmiss r hr)]
      rfl
    rw [this, List.map_id]
  · intro s' heq r' hr' hhash
    unfold TransactionDAL.UpdateTransactionStatus at heq
    simp only [Except.ok.injEq] at heq
    subst heq
    obtain ⟨r, hrmem, hfr⟩ := List.mem_map.mp hr'
    by_cases hcase : r.txHash = h
    · rw [if_pos hcase] at hfr
      subst hfr
      exact ⟨rfl, rfl, rfl, rfl, rfl⟩
    · rw [if_neg hcase] at hfr
      subst hfr
      exact absurd hhash hcase

/-- C9 counterexample: updating with a hash that matches no record (here:
an empty store) succeeds with no error and no effect, where the claim
demands a not-found failure. -/
theorem C9_update_status_counterexample :
    TransactionDAL.UpdateTransactionStatus ⟨[]⟩ "0xdead" 5 ⟨1, 21000, 21000⟩ 9 =
      .ok ⟨[]⟩ := rfl

/-- A stored record used by the C9 witness. -/
def rec9 : TransactionRecord := { zeroRecord with id := 9, txHash := "k9" }

/-- The C9 record after a successful confirmation update. -/
def rec9upd : TransactionRecord :=
  { rec9 with status := 1, gas := 5, gasUsed := 21000
            , cumulativeGasUsed := 21000, confirmedAt := some 9 }

/-- C9 witness: both halves of the amended statement at concrete inputs —
an unknown hash is a silent no-op, a known hash gets all fields
updated. -/
theorem C9_update_status_unknown_hash_witness :
    TransactionDAL.UpdateTransactionStatus ⟨[rec9]⟩ "z9" 5 ⟨1, 21000, 21000⟩ 9 =
      .ok ⟨[rec9]⟩ ∧
    (∀ r' ∈ (Store.mk [rec9upd]).records, r'.txHash = "k9" →
      r'.status = 1 ∧ r'.gas = 5 ∧ r'.gasUsed = ((21000 : Nat) : Int) ∧
      r'.cumulativeGasUsed = ((21000 : Nat) : Int) ∧ r'.confirmedAt = some 9) :=
  ⟨(C9_update_status_unknown_hash ⟨[rec9]⟩ "z9" 5 ⟨1, 21000, 21000⟩ 9).1 (by decide),
   (C9_update_status_unknown_hash ⟨[rec9]⟩ "k9" 5 ⟨1, 21000, 21000⟩ 9).2
     ⟨[rec9upd]⟩ rfl⟩

/-! ## Entry processing -/

theorem processEntryBroadcast_events (w : Wallet) (env : Env) (tx : SignedTx)
    (c : Bool) :
    (w.processEntryBroadcast env tx c).createdTx = c ∧
    (w.processEntryBroadcast env tx c).broadcasts = [tx.hash] := by
  unfold Wallet.processEntryBroadcast
  cases env.broadcastResult tx with
  | none => exact ⟨rfl, rfl⟩
  | some msg =>
    dsimp only
    split
    · cases (w.CheckTransactionAndConfirm env tx).2 <;> exact ⟨rfl, rfl⟩
    · split <;> exact ⟨rfl, rfl⟩

theorem processEntryAsyncBroadcast_events (w : Wallet) (env : Env)
    (entry : TransferEntry) (tx : SignedTx) (c : Bool) :
    (w.processEntryAsyncBroadcast env entry tx c).createdTx = c ∧
    (w.processEntryAsyncBroadcast env entry tx c).broadcasts = [tx.hash] := by
  unfold Wallet.processEntryAsyncBroadcast
  cases env.broadcastResult tx with
  | none => exact ⟨rfl, rfl⟩
  | some msg =>
    dsimp only
    split <;> exact ⟨rfl, rfl⟩

/-- When a stored, not-yet-confirmed record for the entry's id exists and
its stored entry matches the supplied one, `ProcessEntry` reduces to the
broadcast tail running on the stored signed transaction, with
`created = false`. -/
theorem processEntry_stored (w : Wallet) (env : Env) (entry : TransferEntry)
    (tx : SignedTx) (e0 : TransferEntry) (st : Nat)
    (hlook : w.GetTransactionByID entry.id = .ok (some tx, some e0, st))
    (hst : st ≠ Confirmed)
    (hcmp : CompareEntries (some entry) (some e0) = true) :
    w.ProcessEntry env entry = w.processEntryBroadcast env tx false := by
  unfold Wallet.ProcessEntry
  rw [hlook]
  dsimp only
  rw [if_neg hst]
  simp [hcmp]

/-- Same reduction for `ProcessEntryAsync`. -/
theorem processEntryAsync_stored (w : Wallet) (env : Env) (entry : TransferEntry)
    (tx : SignedTx) (e0 : TransferEntry) (st : Nat)
    (hlook : w.GetTransactionByID entry.id = .ok (some tx, some e0, st))
    (hst : st ≠ Confirmed)
    (hcmp : CompareEntries (some entry) (some e0) = true) :
    w.ProcessEntryAsync env entry = w.processEntryAsyncBroadcast env entry tx false := by
  unfold Wallet.ProcessEntryAsync
  rw [hlook]
  dsimp only
  rw [if_neg hst]
  simp [hcmp]

/-- C1: whenever `ProcessEntry` or `ProcessEntryAsync` finds a stored
record for the entry's id that is not Confirmed and whose stored entry
matches the supplied one, the stored signed transaction is reused: the
only hash ever handed to `BroadcastTransaction` is the stored
transaction's hash, and `CreateTransaction` (assemble + sign + persist)
is never invoked — so at most one transaction hash is ever produced for
that id. -/
theorem C1_stored_transaction_reused (w : Wallet) (env : Env)
    (entry : TransferEntry) (tx : SignedTx) (e0 : TransferEntry) (st : Nat)
    (hlook : w.GetTransactionByID entry.id = .ok (some tx, some e0, st))
    (hst : st ≠ Confirmed)
    (hcmp : CompareEntries (some entry) (some e0) = true) :
    ((w.ProcessEntry env entry).createdTx = false ∧
     (w.ProcessEntry env entry).broadcasts = [tx.hash]) ∧
    ((w.ProcessEntryAsync env entry).createdTx = false ∧
     (w.ProcessEntryAsync env entry).broadcasts = [tx.hash]) := by
  rw [processEntry_stored w env entry tx e0 st hlook hst hcmp,
    processEntryAsync_stored w env entry tx e0 st hlook hst hcmp]
  exact ⟨processEntryBroadcast_events w env tx false,
    processEntryAsyncBroadcast_events w env entry tx false⟩

/-- A fixed environment snapshot for the concrete witnesses: every
address validates, broadcasts are accepted, no receipts exist yet. -/
def baseEnv : Env :=
  { pendingNonce := 0, cancelled := false, gasPrice := 2
  , signFor := fun e n gp =>
      { hash := "sig" ++ toString e.id, nonce := n, gasPrice := gp
      , gas := GasLimit, toAddr := e.toAddress, value := e.value }
  , broadcastResult := fun _ => none
  , receiptFor := fun _ => none
  , isValidQuaiAddress := fun _ => true
  , payer := "0xPayer", now := 100 }

/-- A transfer entry with a stored, not-yet-confirmed record. -/
def entry1 : TransferEntry :=
  { id := 1, minerAccount := "m1", value := 10, toAddress := "0xA1"
  , aggregateIds := [7], minerAccountID := 3 }

/-- The stored signed transaction for `entry1`. -/
def tx1 : SignedTx :=
  { hash := "h1", nonce := 4, gasPrice := 2, gas := GasLimit
  , toAddr := "0xA1", value := 10 }

/-- Wallet state holding the stored record for `entry1`. -/
def w1 : Wallet :=
  ⟨4, [4], [],
   ⟨[{ zeroRecord with id := 1, txHash := "h1", nonce := 4
                     , txBlob := some tx1, entryBlob := some entry1
                     , status := Generated }]⟩⟩

/-- Environment for the C1 witness: broadcasts are accepted and the
receipt for the stored transaction is available. -/
def env1 : Env :=
  { baseEnv with receiptFor := fun h => if h = "h1" then some ⟨1, 21000, 21000⟩ else none }

/-- C1 witness: with the stored Generated record for id 1, both entry
processors reuse the stored transaction hash `h1` and never create. -/
theorem C1_stored_transaction_reused_witness :
    (w1.GetTransactionByID entry1.id = .ok (some tx1, some entry1, Generated) ∧
     Generated ≠ Confirmed ∧
     CompareEntries (some entry1) (some entry1) = true) ∧
    (((w1.ProcessEntry env1 entry1).createdTx = false ∧
      (w1.ProcessEntry env1 entry1).broadcasts = [tx1.hash]) ∧
     ((w1.ProcessEntryAsync env1 entry1).createdTx = false ∧
      (w1.ProcessEntryAsync env1 entry1).broadcasts = [tx1.hash])) :=
  ⟨⟨rfl, by decide, by decide⟩,
   C1_stored_transaction_reused w1 env1 entry1 tx1 entry1 Generated rfl
     (by decide) (by decide)⟩

/-- C5 (amended): for an entry whose id has a stored record whose status
is not Confirmed (a Confirmed record is answered with
`ErrAlreadyProcessed` before the comparison runs), a stored entry that
differs from the supplied one in any of id, MinerAccountID, recipient
address or amount makes both `ProcessEntry` and `ProcessEntryAsync`
return the entry-mismatch error with no transaction created, no
broadcast, and no state change. -/
theorem C5_entry_mismatch_rejected (w : Wallet) (env : Env)
    (entry : TransferEntry) (tx : SignedTx) (e0 : TransferEntry) (st : Nat)
    (hlook : w.GetTransactionByID entry.id = .ok (some tx, some e0, st))
    (hst : st ≠ Confirmed)
    (hcmp : CompareEntries (some entry) (some e0) = false) :
    ((w.ProcessEntry env entry).outcome = .err (entryMismatchMsg entry.id) ∧
     (w.ProcessEntry env entry).createdTx = false ∧
     (w.ProcessEntry env entry).broadcasts = [] ∧
     (w.ProcessEntry env entry).wallet = w) ∧
    ((w.ProcessEntryAsync env entry).outcome = .err (entryMismatchMsg entry.id) ∧
     (w.ProcessEntryAsync env entry).createdTx = false ∧
     (w.ProcessEntryAsync env entry).broadcasts = [] ∧
     (w.ProcessEntryAsync env entry).wallet = w) := by
  constructor
  · unfold Wallet.ProcessEntry
    rw [hlook]
    dsimp only
    rw [if_neg hst]
    simp [hcmp]
  · unfold Wallet.ProcessEntryAsync
    rw [hlook]
    dsimp only
    rw [if_neg hst]
    simp [hcmp]

/-- The entry resubmitted with a changed amount in the C5 scenario. -/
def entry5 : TransferEntry :=
  { id := 7, minerAccount := "m5", value := 200, toAddress := "0xA5"
  , aggregateIds := [], minerAccountID := 9 }

/-- The entry originally stored under id 7 (amount 100). -/
def stored5 : TransferEntry := { entry5 with value := 100 }

/-- The stored signed transaction under id 7. -/
def tx5 : SignedTx :=
  { hash := "h5", nonce := 2, gasPrice := 2, gas := GasLimit
  , toAddr := "0xA5", value := 100 }

/-- Wallet whose store holds a CONFIRMED record for id 7 with
amount 100. -/
def w5 : Wallet :=
  ⟨2, [], [],
   ⟨[{ zeroRecord with id := 7, txHash := "h5", nonce := 2
                     , txBlob := some tx5, entryBlob := some stored5
                     , status := Confirmed }]⟩⟩

/-- C5 counterexample: the claim promises an entry-mismatch error for
EVERY stored record that differs from the supplied entry, but when the
stored record is already Confirmed, `ProcessEntry` returns
`ErrAlreadyProcessed` instead — the mismatch is never reported. -/
theorem C5_entry_mismatch_counterexample :
    CompareEntries (some entry5) (some stored5) = false ∧
    (w5.ProcessEntry baseEnv entry5).outcome = .alreadyProcessed ∧
    (w5.ProcessEntry baseEnv entry5).outcome ≠ .err (entryMismatchMsg entry5.id) := by
  refine ⟨by decide, rfl, by decide⟩

/-- The same stored record as in `w5` but still Generated. -/
def w5g : Wallet :=
  ⟨2, [], [],
   ⟨[{ zeroRecord with id := 7, txHash := "h5", nonce := 2
                     , txBlob := some tx5, entryBlob := some stored5
                     , status := Generated }]⟩⟩

/-- C5 witness: with the record still Generated, resubmitting id 7 with
amount 200 instead of 100 is rejected with the mismatch error and causes
no broadcast. -/
theorem C5_entry_mismatch_rejected_witness :
    (w5g.GetTransactionByID entry5.id = .ok (some tx5, some stored5, Generated) ∧
     Generated ≠ Confirmed ∧
     CompareEntries (some entry5) (some stored5) = false) ∧
    (((w5g.ProcessEntry baseEnv entry5).outcome = .err (entryMismatchMsg entry5.id) ∧
      (w5g.ProcessEntry baseEnv entry5).createdTx = false ∧
      (w5g.ProcessEntry baseEnv entry5).broadcasts = [] ∧
      (w5g.ProcessEntry baseEnv entry5).wallet = w5g) ∧
     ((w5g.ProcessEntryAsync baseEnv entry5).outcome = .err (entryMismatchMsg entry5.id) ∧
      (w5g.ProcessEntryAsync baseEnv entry5).createdTx = false ∧
      (w5g.ProcessEntryAsync baseEnv entry5).broadcasts = [] ∧
      (w5g.ProcessEntryAsync baseEnv entry5).wallet = w5g)) :=
  ⟨⟨rfl, by decide, by decide⟩,
   C5_entry_mismatch_rejected w5g baseEnv entry5 tx5 stored5 Generated rfl
     (by decide) (by decide)⟩

/-- C10: the entry equality used by the mismatch check covers exactly the
four fields ID, MinerAccountID, ToAddress and Value: two non-nil entries
agreeing on them compare equal however much `MinerAccount` (display
name) or `AggregateIds` (auxiliary tags) differ, so such a resubmission
passes the mismatch check and silently reuses the stored transaction;
with a nil argument, `CompareEntries` is true exactly when both are
nil. -/
theorem C10_compare_entries_fields (a b : TransferEntry)
    (h1 : a.id = b.id) (h2 : a.minerAccountID = b.minerAccountID)
    (h3 : a.toAddress = b.toAddress) (h4 : a.value = b.value) :
    CompareEntries (some a) (some b) = true ∧
    (∀ o : Option TransferEntry, CompareEntries none o = true ↔ o = none) ∧
    (∀ o : Option TransferEntry, CompareEntries o none = true ↔ o = none) ∧
    (∀ (env : Env) (w : Wallet) (tx : SignedTx) (st : Nat),
      w.GetTransactionByID a.id = .ok (some tx, some b, st) → st ≠ Confirmed →
      (w.ProcessEntry env a).createdTx = false ∧
      (w.ProcessEntry env a).broadcasts = [tx.hash]) := by
  have hc : CompareEntries (some a) (some b) = true := by
    simp [CompareEntries, h1, h2, h3, h4]
  refine ⟨hc, ?_, ?_, ?_⟩
  · intro o; cases o <;> simp [CompareEntries]
  · intro o; cases o <;> simp [CompareEntries]
  · intro env w tx st hlook hst
    rw [processEntry_stored w env a tx b st hlook hst hc]
    exact processEntryBroadcast_events w env tx false

/-- The stored entry of the C10 witness: same four compared fields as
`entry1`, different display name and auxiliary tags. -/
def stored10 : TransferEntry :=
  { entry1 with minerAccount := "otherName", aggregateIds := [99, 100] }

/-- Wallet holding the id-1 record whose stored entry is `stored10`. -/
def w10 : Wallet :=
  ⟨4, [4], [],
   ⟨[{ zeroRecord with id := 1, txHash := "h1", nonce := 4
                     , txBlob := some tx1, entryBlob := some stored10
                     , status := Generated }]⟩⟩

/-- C10 witness: `entry1` and `stored10` differ in display name and
auxiliary tags yet compare equal, and resubmitting `entry1` silently
reuses the stored transaction `h1`. -/
theorem C10_compare_entries_fields_witness :
    (entry1.id = stored10.id ∧ entry1.minerAccountID = stored10.minerAccountID ∧
     entry1.toAddress = stored10.toAddress ∧ entry1.value = stored10.value ∧
     entry1.minerAccount ≠ stored10.minerAccount ∧
     entry1.aggregateIds ≠ stored10.aggregateIds) ∧
    CompareEntries (some entry1) (some stored10) = true ∧
    (w10.GetTransactionByID entry1.id = .ok (some tx1, some stored10, Generated) ∧
     (w10.ProcessEntry baseEnv entry1).createdTx = false ∧
     (w10.ProcessEntry baseEnv entry1).broadcasts = [tx1.hash]) :=
  have h := C10_compare_entries_fields entry1 stored10 (by decide) (by decide)
    (by decide) (by decide)
  ⟨⟨by decide, by decide, by decide, by decide, by decide, by decide⟩,
   h.1, rfl,
   h.2.2.2 baseEnv w10 tx1 Generated rfl (by decide)⟩

/-! ## Broadcast failure classification -/

theorem checkTransactionAndConfirm_found (w : Wallet) (env : Env)
    (tx : SignedTx) (rcpt : Receipt)
    (hrc : env.receiptFor tx.hash = some rcpt) :
    (w.CheckTransactionAndConfirm env tx).2 = none ∧
    .ok (w.CheckTransactionAndConfirm env tx).1.store =
      TransactionDAL.UpdateTransactionStatus w.store tx.hash
        ((rcpt.gasUsed : Int) * tx.gasPrice) rcpt env.now := by
  unfold Wallet.CheckTransactionAndConfirm
  rw [hrc]
  exact ⟨rfl, rfl⟩

theorem processEntryBroadcast_classify (w : Wallet) (env : Env)
    (tx : SignedTx) (c : Bool) (msg : String)
    (hbr : env.broadcastResult tx = some msg) :
    (strContains msg "nonce too low" = true →
      ∀ rcpt, env.receiptFor tx.hash = some rcpt →
        (w.processEntryBroadcast env tx c).outcome = .ok ∧
        (w.processEntryBroadcast env tx c).checkedDirectly = true ∧
        (w.processEntryBroadcast env tx c).monitored = false ∧
        .ok (w.processEntryBroadcast env tx c).wallet.store =
          TransactionDAL.UpdateTransactionStatus w.store tx.hash
            ((rcpt.gasUsed : Int) * tx.gasPrice) rcpt env.now) ∧
    (strContains msg "nonce too low" = false →
      strContains msg "already known" = true →
        (w.processEntryBroadcast env tx c).monitored = true ∧
        (w.processEntryBroadcast env tx c).checkedDirectly = false ∧
        ((w.MonitorAndConfirmTransaction env tx).2 = none →
          (w.processEntryBroadcast env tx c).outcome = .ok)) ∧
    (strContains msg "nonce too low" = false →
      strContains msg "already known" = false →
        (w.processEntryBroadcast env tx c).outcome =
          .err ("failed to send transaction: " ++ msg) ∧
        (w.processEntryBroadcast env tx c).monitored = false ∧
        (w.processEntryBroadcast env tx c).checkedDirectly = false ∧
        (w.processEntryBroadcast env tx c).wallet = w) := by
  refine ⟨?_, ?_, ?_⟩
  · intro hnl rcpt hrc
    unfold Wallet.processEntryBroadcast
    rw [hbr]
    dsimp only
    rw [if_pos hnl]
    obtain ⟨hnone, hstore⟩ := checkTransactionAndConfirm_found w env tx rcpt hrc
    rw [hnone]
    exact ⟨rfl, rfl, rfl, hstore⟩
  · intro hnl hak
    unfold Wallet.processEntryBroadcast
    rw [hbr]
    dsimp only
    rw [if_neg (by simp [hnl]), if_pos hak]
    refine ⟨rfl, rfl, fun hm => ?_⟩
    rw [hm]
  · intro hnl hak
    unfold Wallet.processEntryBroadcast
    rw [hbr]
    dsimp only
    rw [if_neg (by simp [hnl]), if_neg (by simp [hak])]
    exact ⟨rfl, rfl, rfl, rfl⟩

/-- C6: when `BroadcastTransaction` fails inside `ProcessEntry`, the
error message decides the path taken: "nonce too low" is not fatal — the
entry is resolved by one immediate direct receipt lookup
(`CheckTransactionAndConfirm`) which reconciles the store, the monitor
loop is skipped and `ProcessEntry` returns success (given the receipt
exists); "already known" is success-equivalent and proceeds to the
blocking receipt monitor; any other message is propagated as a
failure. -/
theorem C6_broadcast_error_classification (w : Wallet) (env : Env)
    (entry : TransferEntry) (tx : SignedTx) (e0 : TransferEntry) (st : Nat)
    (msg : String)
    (hlook : w.GetTransactionByID entry.id = .ok (some tx, some e0, st))
    (hst : st ≠ Confirmed)
    (hcmp : CompareEntries (some entry) (some e0) = true)
    (hbr : env.broadcastResult tx = some msg) :
    (strContains msg "nonce too low" = true →
      ∀ rcpt, env.receiptFor tx.hash = some rcpt →
        (w.ProcessEntry env entry).outcome = .ok ∧
        (w.ProcessEntry env entry).checkedDirectly = true ∧
        (w.ProcessEntry env entry).monitored = false ∧
        .ok (w.ProcessEntry env entry).wallet.store =
          TransactionDAL.UpdateTransactionStatus w.store tx.hash
            ((rcpt.gasUsed : Int) * tx.gasPrice) rcpt env.now) ∧
    (strContains msg "nonce too low" = false →
      strContains msg "already known" = true →
        (w.ProcessEntry env entry).monitored = true ∧
        (w.ProcessEntry env entry).checkedDirectly = false ∧
        ((w.MonitorAndConfirmTransaction env tx).2 = none →
          (w.ProcessEntry env entry).outcome = .ok)) ∧
    (strContains msg "nonce too low" = false →
      strContains msg "already known" = false →
        (w.ProcessEntry env entry).outcome =
          .err ("failed to send transaction: " ++ msg) ∧
        (w.ProcessEntry env entry).monitored = false ∧
        (w.ProcessEntry env entry).checkedDirectly = false ∧
        (w.ProcessEntry env entry).wallet = w) := by
  rw [processEntry_stored w env entry tx e0 st hlook hst hcmp]
  exact processEntryBroadcast_classify w env tx false msg hbr

/-- Environment whose broadcast fails with a stale-nonce message and
whose receipt for the stored transaction exists. -/
def env6a : Env :=
  { env1 with broadcastResult := fun _ => some "nonce too low: expected 5" }

/-- Environment whose broadcast fails with an already-known message. -/
def env6b : Env :=
  { env1 with broadcastResult := fun _ => some "already known" }

/-- Environment whose broadcast fails with an unclassified message. -/
def env6c : Env :=
  { env1 with broadcastResult := fun _ => some "insufficient funds" }

/-- C6 witness: the three classifications at concrete inputs — stale
nonce resolves by direct receipt lookup and succeeds, already-known goes
to the monitor and succeeds, any other message is propagated. -/
theorem C6_broadcast_error_classification_witness :
    ((w1.ProcessEntry env6a entry1).outcome = .ok ∧
     (w1.ProcessEntry env6a entry1).checkedDirectly = true ∧
     (w1.ProcessEntry env6a entry1).monitored = false ∧
     .ok (w1.ProcessEntry env6a entry1).wallet.store =
       TransactionDAL.UpdateTransactionStatus w1.store tx1.hash
         (((21000 : Nat) : Int) * tx1.gasPrice) ⟨1, 21000, 21000⟩ env6a.now) ∧
    ((w1.ProcessEntry env6b entry1).monitored = true ∧
     (w1.ProcessEntry env6b entry1).checkedDirectly = false ∧
     (w1.ProcessEntry env6b entry1).outcome = .ok) ∧
    ((w1.ProcessEntry env6c entry1).outcome =
       .err ("failed to send transaction: " ++ "insufficient funds") ∧
     (w1.ProcessEntry env6c entry1).monitored = false ∧
     (w1.ProcessEntry env6c entry1).checkedDirectly = false ∧
     (w1.ProcessEntry env6c entry1).wallet = w1) :=
  have ha := C6_broadcast_error_classification w1 env6a entry1 tx1 entry1
    Generated "nonce too low: expected 5" rfl (by decide) (by decide) rfl
  have hb := C6_broadcast_error_classification w1 env6b entry1 tx1 entry1
    Generated "already known" rfl (by decide) (by decide) rfl
  have hc := C6_broadcast_error_classification w1 env6c entry1 tx1 entry1
    Generated "insufficient funds" rfl (by decide) (by decide) rfl
  ⟨ha.1 (by decide) ⟨1, 21000, 21000⟩ rfl,
   ⟨(hb.2.1 (by decide) (by decide)).1, (hb.2.1 (by decide) (by decide)).2.1,
    (hb.2.1 (by decide) (by decide)).2.2 rfl⟩,
   hc.2.2 (by decide) (by decide)⟩

/-! ## Receipt confirmation during a monitor tick -/

theorem processPendingTx_found (w : Wallet) (env : Env) (tx : SignedTx)
    (e : TransferEntry) (rcpt : Receipt)
    (hrc : env.receiptFor tx.hash = some rcpt) :
    w.processPendingTx env (tx, e) =
      { maxLocalNonce := w.maxLocalNonce
      , pendingNonces := w.pendingNonces.filter (fun x => x ≠ tx.nonce)
      , pendingTxs := delPendingTx tx.hash w.pendingTxs
      , store := ⟨w.store.records.map (fun r =>
          if r.txHash = tx.hash then
            { r with status := rcpt.status
                   , gas := (rcpt.gasUsed : Int) * tx.gasPrice
                   , gasUsed := (rcpt.gasUsed : Int)
                   , cumulativeGasUsed := (rcpt.cumulativeGasUsed : Int)
                   , confirmedAt := some env.now }
          else r)⟩ } := by
  unfold Wallet.processPendingTx Wallet.CheckTransactionAndConfirm
  rw [hrc]
  rfl

/-- C7 (amended): for a pending submission whose receipt is found during
a monitor tick: the recorded gas cost equals `gasUsed * gasPrice` in
exact integer arithmetic, the stored record's status is set to the raw
receipt status — which equals Confirmed exactly when the receipt reports
execution success — together with the confirmation timestamp, the
transaction's nonce is removed from the pending-nonce set and the
submission is removed from the in-memory pending map. -/
theorem C7_receipt_confirmation_effects (w : Wallet) (env : Env)
    (tx : SignedTx) (e : TransferEntry) (rcpt : Receipt)
    (hrc : env.receiptFor tx.hash = some rcpt) :
    (∀ r' ∈ (w.processPendingTx env (tx, e)).store.records, r'.txHash = tx.hash →
        r'.gas = (rcpt.gasUsed : Int) * tx.gasPrice ∧
        r'.status = rcpt.status ∧
        (rcpt.status = 1 → r'.status = Confirmed) ∧
        r'.confirmedAt = some env.now) ∧
    tx.nonce ∉ (w.processPendingTx env (tx, e)).pendingNonces ∧
    (∀ q ∈ (w.processPendingTx env (tx, e)).pendingTxs, q.1.hash ≠ tx.hash) := by
  rw [processPendingTx_found w env tx e rcpt hrc]
  refine ⟨?_, ?_, ?_⟩
  · intro r' hr' hhash
    obtain ⟨r, hrmem, hfr⟩ := List.mem_map.mp hr'
    by_cases hcase : r.txHash = tx.hash
    · rw [if_pos hcase] at hfr
      subst hfr
      exact ⟨rfl, rfl, fun h1 => h1 ▸ rfl, rfl⟩
    · rw [if_neg hcase] at hfr
      subst hfr
      exact absurd hhash hcase
  · intro hmem
    simp only [List.mem_filter, decide_eq_true_eq] at hmem
    exact hmem.2 rfl
  · intro q hq
    simp only [delPendingTx, List.mem_filter, decide_eq_true_eq] at hq
    exact hq.2

/-- The pending transaction of the C7 scenarios. -/
def tx7 : SignedTx :=
  { hash := "h7", nonce := 5, gasPrice := 3, gas := GasLimit
  , toAddr := "0xB7", value := 50 }

/-- Its source entry. -/
def e7 : TransferEntry :=
  { id := 11, minerAccount := "m7", value := 50, toAddress := "0xB7"
  , aggregateIds := [], minerAccountID := 4 }

/-- Wallet with the id-11 record still Generated, nonce 5 pending and the
submission in the pending map. -/
def w7 : Wallet :=
  ⟨5, [5], [(tx7, e7)],
   ⟨[{ zeroRecord with id := 11, txHash := "h7", nonce := 5
                     , txBlob := some tx7, entryBlob := some e7
                     , status := Generated }]⟩⟩

/-- Environment in which the receipt for `h7` reports a FAILED execution
(status 0). -/
def env7 : Env :=
  { baseEnv with receiptFor := fun h => if h = "h7" then some ⟨0, 21000, 21000⟩ else none }

/-- C7 counterexample: the claim says a found receipt marks the stored
record confirmed, but `UpdateTransactionStatus` writes the raw receipt
status — a found receipt with failed execution status (0) leaves the
record's status at Generated, not Confirmed. -/
theorem C7_failed_receipt_counterexample :
    (env7.receiptFor tx7.hash).isSome = true ∧
    (w7.processPendingTx env7 (tx7, e7)).store.records.map
      TransactionRecord.status = [Generated] ∧
    Generated ≠ Confirmed := by
  refine ⟨by decide, by decide, by decide⟩

/-- Environment in which the receipt for `h7` reports a successful
execution (status 1). -/
def env7b : Env :=
  { baseEnv with receiptFor := fun h => if h = "h7" then some ⟨1, 21000, 21000⟩ else none }

/-- C7 witness: a successful receipt at a concrete input — the stored
record gets gas cost `21000 * 3`, status Confirmed and the timestamp,
nonce 5 leaves the pending-nonce set and `h7` leaves the pending map. -/
theorem C7_receipt_confirmation_effects_witness :
    env7b.receiptFor tx7.hash = some ⟨1, 21000, 21000⟩ ∧
    ((∀ r' ∈ (w7.processPendingTx env7b (tx7, e7)).store.records,
        r'.txHash = tx7.hash →
        r'.gas = ((21000 : Nat) : Int) * tx7.gasPrice ∧
        r'.status = (1 : Nat) ∧
        ((1 : Nat) = 1 → r'.status = Confirmed) ∧
        r'.confirmedAt = some env7b.now) ∧
     tx7.nonce ∉ (w7.processPendingTx env7b (tx7, e7)).pendingNonces ∧
     (∀ q ∈ (w7.processPendingTx env7b (tx7, e7)).pendingTxs,
        q.1.hash ≠ tx7.hash)) :=
  ⟨rfl, C7_receipt_confirmation_effects w7 env7b tx7 e7 ⟨1, 21000, 21000⟩ rfl⟩

/-! ## Batch aggregation -/

/-- First batch entry (id 1 reuses `entry1`/`tx1`). -/
def e82 : TransferEntry :=
  { id := 2, minerAccount := "m2", value := 20, toAddress := "0xA2"
  , aggregateIds := [], minerAccountID := 3 }

/-- Third batch entry. -/
def e83 : TransferEntry :=
  { id := 3, minerAccount := "m3", value := 30, toAddress := "0xA3"
  , aggregateIds := [], minerAccountID := 3 }

/-- Stored transaction for `e82`. -/
def tx82 : SignedTx :=
  { hash := "h2", nonce := 5, gasPrice := 2, gas := GasLimit
  , toAddr := "0xA2", value := 20 }

/-- Stored transaction for `e83`. -/
def tx83 : SignedTx :=
  { hash := "h3", nonce := 6, gasPrice := 2, gas := GasLimit
  , toAddr := "0xA3", value := 30 }

/-- Wallet whose store holds Generated records for the three entries. -/
def w8 : Wallet :=
  ⟨6, [4, 5, 6], [],
   ⟨[{ zeroRecord with id := 1, txHash := "h1", nonce := 4
                     , txBlob := some tx1, entryBlob := some entry1
                     , status := Generated },
      { zeroRecord with id := 2, txHash := "h2", nonce := 5
                      , txBlob := some tx82, entryBlob := some e82
                      , status := Generated },
      { zeroRecord with id := 3, txHash := "h3", nonce := 6
                      , txBlob := some tx83, entryBlob := some e83
                      , status := Generated }]⟩⟩

/-- Receipt oracle that never finds a receipt (nothing mined yet). -/
def oracle8 : Nat → String → Option Receipt := fun _ _ => none

/-- C8: the reported batch counts always satisfy
`Succeeded = total − Invalid − Failed − Skipped − Unconfirmed`; when the
monitor deadline has already expired (zero ticks), Unconfirmed equals the
number of transactions still in the pending set after the initial check
pass; and concretely, with an already-expired deadline and 3 freshly
broadcast transactions the run reports 3 Unconfirmed, 0 Failed and 0
Succeeded. -/
theorem C8_batch_counts :
    (∀ (w : Wallet) (env : Env) (oracle : Nat → String → Option Receipt)
       (fuel : Nat) (entries : List TransferEntry),
      (w.ProcessBatchEntry env oracle fuel entries).1.success =
        ((w.ProcessBatchEntry env oracle fuel entries).1.total : Int) -
        ((w.ProcessBatchEntry env oracle fuel entries).1.invalid : Int) -
        ((w.ProcessBatchEntry env oracle fuel entries).1.failed : Int) -
        ((w.ProcessBatchEntry env oracle fuel entries).1.processed : Int) -
        ((w.ProcessBatchEntry env oracle fuel entries).1.unprocessed : Int)) ∧
    (∀ (w : Wallet) (env : Env) (oracle : Nat → String → Option Receipt),
      (w.MonitorAllTransactions env oracle 0).1 =
        (w.checkPendingTransactions { env with receiptFor := oracle 0 }).pendingTxs.length) ∧
    (w8.ProcessBatchEntry baseEnv oracle8 0 [entry1, e82, e83]).1 =
      { total := 3, success := 0, failed := 0, processed := 0
      , unprocessed := 3, invalid := 0 } := by
  refine ⟨fun w env oracle fuel entries => rfl, fun w env oracle => ?_, by decide⟩
  unfold Wallet.MonitorAllTransactions Wallet.monitorLoop
  split
  · next h =>
    rw [List.isEmpty_iff] at h
    rw [h]
    rfl
  · rfl
